import Mathlib

/-!
Verification of the subreddit-analysis pipeline
(`analyze_ai/analyze_subreddit.py`) against its specification.

The Python source is shallowly embedded: records are structures of `Option`
fields (an absent dictionary key is `none`), machine integers are `Int`/`Nat`,
float percentages are `ℚ` (exact rational arithmetic standing in for IEEE
doubles), raising code returns `Except`, and the effectful pipeline
(`process_subreddit_file`, its aggregation block, and the combined stage of
`main`) is embedded as pure functions that return the list of files written,
the list of prompts sent to the LLM completion service, and an `Except`
outcome.  The LLM completion service and the `datetime` date renderer are
external collaborators (spec section 6) and are passed in as oracle
functions `llm : String → Option String` (`none` = request failure) and
`dateFmt : Int → String` (the `strftime('%Y-%m-%d')` rendering of an epoch
timestamp).
-/

namespace SubAnalyze

/-- Scalar value stored under `created_utc` in a record: an integer
(a Python int; a float is collapsed to its truncated integer value),
a string, or `None`. -/
inductive TsVal where
  | num (n : Int)
  | str (s : String)
  | null
  deriving DecidableEq

/-- One Reddit record (post or comment) as read from the archive. Each field
is `Option`al, mirroring `item.get(...)` / `'key' in item` in the source. -/
structure Item where
  created_utc : Option TsVal
  author : Option String
  score : Option Int
  title : Option String
  selftext : Option String
  body : Option String
  num_comments : Option Int
  deriving DecidableEq

/-- The Python exceptions the embedded code can raise: `ValueError` /
`TypeError` from `int(...)` and from `analyze_with_openai`'s missing-key
check (collapsed into one constructor, since no caller distinguishes them),
and a failure raised by the record source while iterating. -/
inductive PyErr where
  | valueError
  | readError
  deriving DecidableEq

/-- Numeric value of a nonempty string of decimal digits. -/
def digitsVal (l : List Char) : Option Nat :=
  if l ≠ [] ∧ l.all (fun c => c.isDigit) then
    some (l.foldl (fun a c => a * 10 + (c.toNat - 48)) 0)
  else none

/-- Model of Python `int(s)` on a string: an optional minus sign followed by
decimal digits; any other string raises `ValueError` (modelled as `none`). -/
def pyParseInt (s : String) : Option Int :=
  match s.data with
  | '-' :: rest => (digitsVal rest).map (fun n => -(n : Int))
  | l => (digitsVal l).map (fun n => (n : Int))

/-- Model of `int(item.get('created_utc', 0))`: a missing key defaults to `0`
(which parses, as epoch 0), an integer value is itself, a string value parses
as a decimal integer or raises `ValueError`, and `None` raises `TypeError`.
`none` models a raised exception. -/
def parsedCreated (v : Option TsVal) : Option Int :=
  match v with
  | none => some 0
  | some (.num n) => some n
  | some (.str s) => pyParseInt s
  | some .null => none

/-- The `date_range` entry of the metadata: earliest/latest timestamp seen,
kept as raw epoch seconds (the source's final `strftime('%Y-%m-%d')`
rendering is applied only where prompt text is built). -/
structure DateRange where
  earliest : Option Int
  latest : Option Int
  deriving DecidableEq

/-- One `for item in subreddit_data` step of `extract_metadata`, acting on
the state `(date_range, authors, total_score)`. A timestamp that fails to
parse is skipped (`except (ValueError, TypeError): pass`); sentinel authors
are never inserted; the Python `set` of authors is modelled by
order-preserving insertion of unseen elements. -/
def metaStep (st : DateRange × List String × Int) (it : Item) :
    DateRange × List String × Int :=
  let d : DateRange :=
    match parsedCreated it.created_utc with
    | none => st.1
    | some t =>
        ⟨some (match st.1.earliest with
               | none => t
               | some e => if t < e then t else e),
         some (match st.1.latest with
               | none => t
               | some l0 => if l0 < t then t else l0)⟩
  let as : List String :=
    match it.author with
    | none => st.2.1
    | some a =>
        if a = "[deleted]" ∨ a = "AutoModerator" then st.2.1
        else if a ∈ st.2.1 then st.2.1 else st.2.1 ++ [a]
  let sc : Int :=
    match it.score with
    | none => st.2.2
    | some s => st.2.2 + s
  (d, as, sc)

/-- The metadata dictionary `extract_metadata` returns. -/
structure SubMetadata where
  post_count : Nat
  date_range : DateRange
  authors : List String
  avg_score : ℚ
  total_score : Int
  unique_authors : Nat
  deriving DecidableEq

/-- Model of `extract_metadata` (analyze_subreddit.py lines 88-133):
fold `metaStep` over the items, then derive the average score,
`authors = list(set)` and `unique_authors = len(authors)`. -/
def extract_metadata (l : List Item) : SubMetadata :=
  let st := l.foldl metaStep (⟨none, none⟩, [], 0)
  ⟨l.length, st.1, st.2.1,
   if 0 < l.length then (st.2.2 : ℚ) / (l.length : ℚ) else 0,
   st.2.2, st.2.1.length⟩

/-- Fuel-indexed worker for `chunk_list`; the fuel (an upper bound on the
list length) only makes the recursion structural and never runs out when
the chunk size is positive. -/
def chunkListAux (n : Nat) : Nat → List α → List (List α)
  | _, [] => []
  | 0, _ :: _ => []
  | (f + 1), a :: as => ((a :: as).take n) :: chunkListAux n f ((a :: as).drop n)

/-- Modelled from the spec: `chunk_list` is imported from `personal/utils.py`,
which is not among the provided repository files; spec section 4.3 describes
it as splitting "the ingested buffer into contiguous, order-preserving
batches of exactly `chunk_size` records (final batch may be shorter)".
With chunk size `0` (unspecified there) no batches are produced. -/
def chunk_list (l : List α) (n : Nat) : List (List α) :=
  if n = 0 then [] else chunkListAux n l.length l

/-- Model of Python `round(x, 2)`: the value rounded to two decimal places
(half rounds up here; Python's float `round` resolves exact ties to even,
a difference visible only on exact multiples of 0.005). -/
def round2 (q : ℚ) : ℚ := ((⌊q * 100 + 1 / 2⌋ : ℤ) : ℚ) / 100

/-- The `coverage_pct` computed in `process_subreddit_file` lines 355-358:
`(items_processed / total_items_estimate) * 100` when the estimate is
positive, `0` otherwise. -/
def coverage_pct (p est : Nat) : ℚ :=
  if 0 < est then ((p : ℚ) / (est : ℚ)) * 100 else 0

/-- The `file_coverage` dictionary (lines 363-368). -/
structure FileCoverage where
  items_processed : Nat
  total_items_estimate : Nat
  coverage_percentage : ℚ
  file_size_bytes : Nat
  deriving DecidableEq

/-- Model of lines 354-368: build the per-archive coverage record, with the
percentage rounded to two decimals. -/
def file_coverage_of (p est fsz : Nat) : FileCoverage :=
  ⟨p, est, round2 (coverage_pct p est), fsz⟩

/-- Model of `"{:.2f}".format` / `f"{x:.2f}"` on a nonnegative rational. -/
def fmt2 (q : ℚ) : String :=
  let n : Int := ⌊q * 100 + 1 / 2⌋
  let frac := (n % 100).toNat
  toString (n / 100) ++ "." ++ (if frac < 10 then "0" ++ toString frac else toString frac)

/-- Everything `read_obj_zst_meta` does on one full iteration attempt over an
archive: the `(record, cumulative_bytes_consumed)` pairs it yields in order
(the raw line is never used), and whether it raises after yielding them.
The record source is restartable: each pass sees the same run. -/
structure SourceRun where
  yielded : List (Item × Nat)
  failed : Bool

/-- The 500 MB size threshold of line 298 (`500 * 1024 * 1024`). -/
def sizeThreshold : Nat := 500 * 1024 * 1024

/-- The sampling loop of the large-archive branch (lines 321-325): count
yielded records, and at the 1000th record remember its cumulative byte
offset and stop.  Arguments: remaining records, `sample_items` so far,
`sample_bytes` so far. -/
def sampleLoop : List (Item × Nat) → Nat → Nat → Nat × Nat
  | [], cnt, sb => (cnt, sb)
  | (_, b) :: rest, cnt, sb =>
      if 1000 ≤ cnt + 1 then (cnt + 1, b) else sampleLoop rest (cnt + 1) sb

/-- Model of the size-estimation stage of `process_subreddit_file`
(lines 296-336).  Below the threshold: a full counting pass inside
`try/except`, whose failure is caught and replaced by the
`file_size // 500` heuristic.  At or above the threshold: sample the first
1000 records (no `try` around this loop, so a source failure before the
1000th record propagates), then extrapolate
`int((sample_items / sample_bytes) * file_size)` — written here in exact
arithmetic as `sample_items * file_size / sample_bytes` — or fall back to
`file_size // 500` when no usable sample was obtained. -/
def estimate_total_items (src : SourceRun) (file_size : Nat) : Except PyErr Nat :=
  if file_size < sizeThreshold then
    .ok (if src.failed then file_size / 500 else src.yielded.length)
  else
    if src.failed ∧ src.yielded.length < 1000 then .error .readError
    else
      .ok (if 0 < (sampleLoop src.yielded 0 0).1 ∧ 0 < (sampleLoop src.yielded 0 0).2 then
        (sampleLoop src.yielded 0 0).1 * file_size / (sampleLoop src.yielded 0 0).2
      else file_size / 500)

/-- Model of `os.path.basename`: the characters after the last slash. -/
def basenameChars (l : List Char) : List Char :=
  l.foldl (fun acc ch => if ch = '/' then [] else acc ++ [ch]) []

/-- Model of Python `str.split(sep)` for a one-character separator. -/
def splitOnCharAux (c : Char) : List Char → List (List Char)
  | [] => [[]]
  | x :: xs =>
      let r := splitOnCharAux c xs
      if x = c then [] :: r
      else (x :: r.headI) :: r.tail

/-- Model of `os.path.basename(file_path).split('_')[0]` (lines 286-288 and
536-540): the subreddit identifier derived from an archive path. -/
def subredditOf (path : String) : String :=
  String.mk ((splitOnCharAux '_' (basenameChars path.data)).headI)

/-- One analyzed chunk's entry of `chunk_results` (lines 413-417). -/
structure ChunkResult where
  chunk_id : Nat
  metadata : SubMetadata
  analysis : String
  deriving DecidableEq

/-- The per-archive-type JSON summary object (lines 480-505): the last two
fields model the `"meta_analysis"` / `"analysis"` key and its text. -/
structure SummaryJson where
  subreddit : String
  chunks_analyzed : Nat
  total_posts_analyzed : Nat
  coverage_data : FileCoverage
  analysis_date : String
  analysis_key : String
  analysis_text : String
  deriving DecidableEq

/-- The `overall_coverage` dictionary of `main` (lines 548-591). -/
structure OverallCoverage where
  total_items_estimate : Nat
  items_processed : Nat
  coverage_percentage : ℚ
  deriving DecidableEq

/-- The final combined JSON summary of `main` (lines 654-668). -/
structure FinalSummary where
  subreddit : String
  analysis_date : String
  submissions_analyzed : Nat
  comments_analyzed : Nat
  overall : OverallCoverage
  submissions_cov : Option FileCoverage
  comments_cov : Option FileCoverage
  combined_analysis : String
  deriving DecidableEq

/-- Content of a file the pipeline writes: prompt/analysis text, the
all-analyses JSON array, a per-type summary, or the final combined summary. -/
inductive FContent where
  | text (s : String)
  | resultsJson (rs : List ChunkResult)
  | summaryJson (s : SummaryJson)
  | finalJson (f : FinalSummary)
  deriving DecidableEq

/-- One file written to the output directory: name and content. -/
structure FW where
  name : String
  content : FContent
  deriving DecidableEq

/-- Model of `analyze_with_openai` (lines 223-268): raises `ValueError` when
no API key is configured; otherwise one request to the completion service,
whose failure is classified and logged but surfaced to the caller only as
`None`. -/
def analyze_with_openai (apiKey : Option String) (llm : String → Option String)
    (prompt : String) : Except PyErr (Option String) :=
  match apiKey with
  | none => .error .valueError
  | some _ => .ok (llm prompt)

/-- Model of the per-item body of `format_content_for_ai` (lines 142-167):
`none` = the item is skipped (`continue`), `.error` = the unguarded
`int(item.get('created_utc', 0))` raised. -/
def format_item (issub : Bool) (dateFmt : Int → String) (it : Item) :
    Except PyErr (Option String) :=
  match parsedCreated it.created_utc with
  | none => .error .valueError
  | some t =>
    let created := dateFmt t
    if issub then
      let selftext := it.selftext.getD ""
      let base := "POST [Score: " ++ toString (it.score.getD 0) ++ ", Comments: " ++
        toString (it.num_comments.getD 0) ++ ", Date: " ++ created ++ "]\n" ++
        "TITLE: " ++ it.title.getD "No Title" ++ "\n"
      .ok (some (if selftext ≠ "" ∧ selftext ≠ "[deleted]" ∧ selftext ≠ "[removed]" then
        base ++ "CONTENT: " ++ selftext ++ "\n" else base))
    else
      let body := it.body.getD ""
      if body ≠ "" ∧ body ≠ "[deleted]" ∧ body ≠ "[removed]" then
        .ok (some ("COMMENT [Score: " ++ toString (it.score.getD 0) ++ ", Date: " ++
          created ++ "]\n" ++ "CONTENT: " ++ body ++ "\n"))
      else .ok none

/-- The item loop of `format_content_for_ai`: collect each item's rendering
in order, propagating the first raised exception. -/
def formatItemsAux (issub : Bool) (dateFmt : Int → String) :
    List Item → Except PyErr (List (Option String))
  | [] => .ok []
  | it :: tl =>
    match format_item issub dateFmt it with
    | .error e => .error e
    | .ok o =>
      match formatItemsAux issub dateFmt tl with
      | .error e => .error e
      | .ok rest => .ok (o :: rest)

/-- Model of `format_content_for_ai` (lines 136-169). -/
def format_content_for_ai (items : List Item) (issub : Bool)
    (dateFmt : Int → String) : Except PyErr String :=
  match formatItemsAux issub dateFmt items with
  | .error e => .error e
  | .ok parts => .ok (String.intercalate "\n\n" (parts.filterMap id))

/-- A date-range endpoint as the prompt renders it: the formatted date, or
the string Python prints for `None`. -/
def dateOrNone (o : Option Int) (dateFmt : Int → String) : String :=
  match o with
  | some t => dateFmt t
  | none => "None"

/-- Model of `prepare_ai_prompt` (lines 172-220): the f-string template with
its interpolations. -/
def prepare_ai_prompt (sub content : String) (md : SubMetadata)
    (dateFmt : Int → String) : String :=
  "\n# Subreddit Community Analysis: r/" ++ sub ++ "\n\n## Context\n- Subreddit: r/" ++ sub ++
  "\n- Time period: " ++ dateOrNone md.date_range.earliest dateFmt ++ " to " ++
  dateOrNone md.date_range.latest dateFmt ++ "\n- Sample size: " ++ toString md.post_count ++
  " posts/comments\n- Unique authors: " ++ toString md.unique_authors ++
  "\n\n## Your Task\nYou are a cultural anthropologist and user researcher analyzing this community to identify pain points, challenges, and recurring themes. Based on the content provided, conduct a thorough analysis of the community conversations.\n\n## Analysis Framework\nPlease analyze the following content from r/" ++
  sub ++ " and provide insights in these categories:\n\n0. **General Information**\n   - What is the community about?\n   - What are the main topics discussed?\n   - What is popular to chat about, what isn't?\n\n1. **Primary Pain Points and Problems**\n   - Identify the most significant challenges, frustrations, or problems faced by community members\n   - Rank these issues by apparent frequency and emotional intensity\n   - Include specific examples or quotes that illustrate each pain point\n\n2. **Recurring Questions and Information Gaps**\n   - Note patterns of questions that appear repeatedly\n   - Identify topics where users seem to lack information or clarity\n   - Highlight areas where the community struggles to find consensus or clear answers\n\n3. **Most Popular Solutions, Products, or Services**\n   - Identify the most frequently discussed solutions, products, or services\n   - Analyze the frequency and intensity of discussion around these topics\n   - Consider the emotional tone and sentiment associated with each topic\n\n4. **Least Popular Solutions, Products, or Services**\n   - Identify the least frequently discussed solutions, products, or services\n   - Analyze the frequency and intensity of discussion around these topics\n   - Consider the emotional tone and sentiment associated with each topic\n\n## Content For Analysis:\n\n" ++
  content ++ "\n"

/-- The `"\n\n".join(f"## Chunk {id} Analysis\n\n{analysis}" ...)` of
lines 439-440: every chunk analysis labeled with its 1-based chunk ordinal,
in list order. -/
def chunkAnalysesJoined (results : List ChunkResult) : String :=
  String.intercalate "\n\n"
    (results.map (fun r => "## Chunk " ++ toString r.chunk_id ++ " Analysis\n\n" ++ r.analysis))

/-- Model of the meta-prompt f-string (lines 442-461). -/
def meta_prompt (sub : String) (covPct : ℚ) (results : List ChunkResult) : String :=
  "\n# Meta-Analysis of r/" ++ sub ++ "\n\nYou have been provided with " ++
  toString results.length ++
  " separate analyses of different chunks of content from the subreddit r/" ++ sub ++
  ".\nYour task is to synthesize these analyses into a coherent summary that identifies:\n\n1. The most consistent pain points and problems across all analyses\n2. The most common questions and information gaps\n3. The most frequently discussed solutions, products, or services\n4. Overall themes and patterns in the community\n\nPlease provide a comprehensive summary that brings together the insights from all chunks, highlighting both consistencies and any notable differences between chunks.\n\n## Analysis Coverage\nThis analysis covers approximately " ++
  fmt2 covPct ++ "% of the total content in the subreddit file.\n\n## Individual Chunk Analyses\n\n" ++
  chunkAnalysesJoined results ++ "\n"

/-- `sum(result["metadata"]["post_count"] for result in results)`. -/
def totalPosts (rs : List ChunkResult) : Nat :=
  (rs.map (fun r => r.metadata.post_count)).sum

/-- Model of the aggregation block of `process_subreddit_file`
(lines 427-505): given the surviving `chunk_results`, write the combined
JSON array, then either the meta-analysis path (two or more results), the
single-chunk summary (exactly one), or nothing (none).  Returns the files
written, the prompts sent to the LLM, and the outcome (an exception can
only arise from `analyze_with_openai`'s missing-key check). -/
def aggregate (apiKey : Option String) (llm : String → Option String)
    (today sub : String) (covPct : ℚ) (fileCov : FileCoverage)
    (results : List ChunkResult) : List FW × List String × Except PyErr Unit :=
  match results with
  | [] => ([], [], .ok ())
  | r0 :: rtl =>
    let cw : FW := ⟨sub ++ "_all_analyses.json", .resultsJson (r0 :: rtl)⟩
    if 1 ≤ rtl.length then
      let mp := meta_prompt sub covPct (r0 :: rtl)
      let mpw : FW := ⟨sub ++ "_meta_prompt.txt", .text mp⟩
      match analyze_with_openai apiKey llm mp with
      | .error e => ([cw, mpw], [], .error e)
      | .ok none => ([cw, mpw], [mp], .ok ())
      | .ok (some m) =>
          ([cw, mpw, ⟨sub ++ "_meta_analysis.md", .text m⟩,
            ⟨sub ++ "_analysis_summary.json",
             .summaryJson ⟨sub, (r0 :: rtl).length, totalPosts (r0 :: rtl), fileCov, today,
                           "meta_analysis", m⟩⟩],
           [mp], .ok ())
    else
      ([cw, ⟨sub ++ "_analysis_summary.json",
             .summaryJson ⟨sub, 1, r0.metadata.post_count, fileCov, today,
                           "analysis", r0.analysis⟩⟩],
       [], .ok ())

/-- Model of the per-chunk loop of `process_subreddit_file` (lines 379-424):
for the chunk at 0-based position `i`, extract metadata, format content
(which can raise on a bad timestamp), write the prompt file, call the LLM
(which raises `ValueError` when no key is configured), and on success write
the analysis file and record an `AnalysisResult` with 1-based `chunk_id`.
Files written before an exception are kept (they persist on disk). -/
def chunkLoop (apiKey : Option String) (llm : String → Option String)
    (dateFmt : Int → String) (sub : String) (issub : Bool) :
    List (List Item) → Nat → List FW × List String × Except PyErr (List ChunkResult)
  | [], _ => ([], [], .ok [])
  | chunk :: rest, i =>
    let md := extract_metadata chunk
    match format_content_for_ai chunk issub dateFmt with
    | .error e => ([], [], .error e)
    | .ok content =>
      let prompt := prepare_ai_prompt sub content md dateFmt
      let pw : FW := ⟨sub ++ "_chunk_" ++ toString (i + 1) ++ "_prompt.txt", .text prompt⟩
      match analyze_with_openai apiKey llm prompt with
      | .error e => ([pw], [], .error e)
      | .ok none =>
          let r := chunkLoop apiKey llm dateFmt sub issub rest (i + 1)
          (pw :: r.1, prompt :: r.2.1, r.2.2)
      | .ok (some a) =>
          let aw : FW := ⟨sub ++ "_chunk_" ++ toString (i + 1) ++ "_analysis.md", .text a⟩
          let r := chunkLoop apiKey llm dateFmt sub issub rest (i + 1)
          (pw :: aw :: r.1, prompt :: r.2.1,
           r.2.2.map (fun rs => ⟨i + 1, md, a⟩ :: rs))

/-- Model of `process_subreddit_file` (lines 271-507): missing file →
`None`; otherwise estimate the total (which can raise for a large failing
archive), re-read up to `chunk_size * max_chunks` records (a source failure
before that cap propagates; the cap check `items_processed >= cap` runs
after each append, so a cap of `0` still ingests one record), build the
coverage record, chunk, run the per-chunk loop, and aggregate. -/
def process_subreddit_file (apiKey : Option String) (llm : String → Option String)
    (dateFmt : Int → String) (today : String) (file : Option SourceRun)
    (file_size : Nat) (path : String) (chunk_size max_chunks : Nat) (issub : Bool) :
    List FW × List String × Except PyErr (Option (List ChunkResult × FileCoverage)) :=
  match file with
  | none => ([], [], .ok none)
  | some src =>
    let sub := subredditOf path
    match estimate_total_items src file_size with
    | .error e => ([], [], .error e)
    | .ok est =>
      let cap := max (chunk_size * max_chunks) 1
      if src.failed ∧ src.yielded.length < cap then ([], [], .error .readError)
      else
        let all_items := (src.yielded.map Prod.fst).take cap
        let covPct := coverage_pct all_items.length est
        let fileCov := file_coverage_of all_items.length est file_size
        let chunks := (chunk_list all_items chunk_size).take max_chunks
        let r := chunkLoop apiKey llm dateFmt sub issub chunks 0
        match r.2.2 with
        | .error e => (r.1, r.2.1, .error e)
        | .ok results =>
          let ag := aggregate apiKey llm today sub covPct fileCov results
          match ag.2.2 with
          | .error e => (r.1 ++ ag.1, r.2.1 ++ ag.2.1, .error e)
          | .ok _ => (r.1 ++ ag.1, r.2.1 ++ ag.2.1, .ok (some (results, fileCov)))

/-- Model of the overall coverage accumulation of `main` (lines 548-591):
sum `items_processed` and `total_items_estimate` over the present per-type
coverages, then recompute the rounded percentage from the sums. -/
def overall_coverage_of (sc cc : Option FileCoverage) : OverallCoverage :=
  let e := (match sc with | some c => c.total_items_estimate | none => 0) +
           (match cc with | some c => c.total_items_estimate | none => 0)
  let p := (match sc with | some c => c.items_processed | none => 0) +
           (match cc with | some c => c.items_processed | none => 0)
  ⟨e, p, if 0 < e then round2 (((p : ℚ) / (e : ℚ)) * 100) else 0⟩

/-- The per-chunk analysis file name `f"{sub}_chunk_{i}_analysis.md"`. -/
def analysisFileName (sub : String) (i : Nat) : String :=
  sub ++ "_chunk_" ++ toString i ++ "_analysis.md"

/-- `os.path.exists` + `open(path).read()` against a directory modelled by
the list of files written into it: the text content of the named file,
if present. -/
def readTextFile (writes : List FW) (name : String) : Option String :=
  match writes.find? (fun w => w.name == name) with
  | some w => match w.content with | .text s => some s | _ => none
  | none => none

/-- Model of lines 602-613 of `main`: the `all_analyses` list read for the
combined stage.  The paths enumerate `chunk_{i+1}_analysis.md` for
`i in range(len(submission_results))` and likewise for comments — the
range is indexed by the number of surviving results, not by the
chunk ordinals that were actually written. -/
def combined_all_analyses (sub : String) (subWrites : List FW) (nSub : Nat)
    (comWrites : List FW) (nCom : Nat) : List String :=
  ((List.range nSub).filterMap (fun i => readTextFile subWrites (analysisFileName sub (i + 1)))) ++
  ((List.range nCom).filterMap (fun i => readTextFile comWrites (analysisFileName sub (i + 1))))

/-- Python `repr` of one character inside a single-quoted string literal. -/
def pyCharRepr (c : Char) : String :=
  if c = '\\' then "\\\\"
  else if c = Char.ofNat 39 then "\\" ++ String.singleton (Char.ofNat 39)
  else if c = '\n' then "\\n"
  else if c = Char.ofNat 13 then "\\r"
  else if c = Char.ofNat 9 then "\\t"
  else String.singleton c

/-- Python `repr` of a string (always single-quoted here; CPython switches
to double quotes when the string holds a single quote and no double). -/
def pyStrRepr (s : String) : String :=
  String.singleton (Char.ofNat 39) ++ String.join (s.data.map pyCharRepr) ++
    String.singleton (Char.ofNat 39)

/-- Python `str` of a list of strings, as the f-string
`f"...{all_analyses}..."` renders it. -/
def pyListRepr (l : List String) : String :=
  "[" ++ String.intercalate ", " (l.map pyStrRepr) ++ "]"

/-- Model of the combined-prompt f-string (lines 617-635).  Note the source
interpolates the Python *list* `all_analyses`, so the prompt embeds the
list's `repr`, not a plain join. -/
def combined_prompt_of (sub : String) (all_analyses : List String) : String :=
  "\n# Combined Analysis of r/" ++ sub ++
  "\n\nYou have been provided with separate analyses of submissions and comments from the subreddit r/" ++
  sub ++
  ".\nYour task is to synthesize these analyses into a coherent summary that provides a complete picture of the community.\n\nPlease provide a comprehensive summary that brings together the insights from all analyses, highlighting:\n\n1. The primary characteristics and purpose of this subreddit community\n2. The most significant pain points and problems faced by community members\n3. The most common questions and information gaps\n4. The most popular solutions, products, or services discussed\n5. The least popular solutions, products, or services discussed\n6. Overall themes, patterns, and dynamics in the community\n\n## Individual Analyses\n\n" ++
  pyListRepr all_analyses ++ "\n"

/-- Model of the combined stage of `main` (lines 594-668): when both
archive-types produced a nonempty `chunk_results` list, re-read the
per-chunk analysis files (as `combined_all_analyses` enumerates them),
build the combined prompt, call the LLM once, and on success write the
combined analysis file and the final summary JSON. -/
def combined_stage (apiKey : Option String) (llm : String → Option String)
    (today sub : String) (subResults comResults : List ChunkResult)
    (subWrites comWrites : List FW) (overall : OverallCoverage)
    (subCov comCov : Option FileCoverage) : List FW × List String × Except PyErr Unit :=
  match subResults, comResults with
  | [], _ => ([], [], .ok ())
  | _ :: _, [] => ([], [], .ok ())
  | _ :: _, _ :: _ =>
    let aa := combined_all_analyses sub subWrites subResults.length comWrites comResults.length
    if aa = [] then ([], [], .ok ())
    else
      let cp := combined_prompt_of sub aa
      let cpw : FW := ⟨sub ++ "_combined_prompt.txt", .text cp⟩
      match analyze_with_openai apiKey llm cp with
      | .error e => ([cpw], [], .error e)
      | .ok none => ([cpw], [cp], .ok ())
      | .ok (some ca) =>
          ([cpw, ⟨sub ++ "_combined_analysis.md", .text ca⟩,
            ⟨sub ++ "_analysis_summary.json",
             .finalJson ⟨sub, today, totalPosts subResults, totalPosts comResults,
                         overall, subCov, comCov, ca⟩⟩],
           [cp], .ok ())

/-! ### Proof-layer definitions -/

/-- The date-range component of one `metaStep`. -/
def dateUpd (d : DateRange) (it : Item) : DateRange :=
  match parsedCreated it.created_utc with
  | none => d
  | some t =>
      ⟨some (match d.earliest with
             | none => t
             | some e => if t < e then t else e),
       some (match d.latest with
             | none => t
             | some l0 => if l0 < t then t else l0)⟩

/-- The value the size estimator returns for a source that does not fail. -/
def estValNoFail (src : SourceRun) (fs : Nat) : Nat :=
  if fs < sizeThreshold then src.yielded.length
  else if 0 < (sampleLoop src.yielded 0 0).1 ∧ 0 < (sampleLoop src.yielded 0 0).2 then
    (sampleLoop src.yielded 0 0).1 * fs / (sampleLoop src.yielded 0 0).2
  else fs / 500

/-- The tail of `process_subreddit_file` after ingestion: propagate a chunk
loop exception, otherwise aggregate (proof-layer regrouping of the source's
final two `match`es). -/
def processTail (r : List FW × List String × Except PyErr (List ChunkResult))
    (ag : List ChunkResult → List FW × List String × Except PyErr Unit)
    (fileCov : FileCoverage) :
    List FW × List String × Except PyErr (Option (List ChunkResult × FileCoverage)) :=
  match r.2.2 with
  | .error e => (r.1, r.2.1, .error e)
  | .ok results =>
    match (ag results).2.2 with
    | .error e => (r.1 ++ (ag results).1, r.2.1 ++ (ag results).2.1, .error e)
    | .ok _ => (r.1 ++ (ag results).1, r.2.1 ++ (ag results).2.1,
        .ok (some (results, fileCov)))

/-- Source with 1000 records of 500 cumulative bytes each step, used to
witness the extrapolation branch of C7. -/
def srcW : SourceRun :=
  ⟨(List.range 1000).map (fun _ => ((⟨none, none, none, none, none, none, none⟩ : Item), 500)),
   false⟩

/-! ### Lemmas about the chunker -/

theorem chunkListAux_nil (n f : Nat) : chunkListAux n f ([] : List α) = [] := by
  cases f <;> rfl

theorem chunkListAux_fuel (n : Nat) (hn : 0 < n) :
    ∀ (f₁ : Nat) (l : List α) (f₂ : Nat), l.length ≤ f₁ → l.length ≤ f₂ →
      chunkListAux n f₁ l = chunkListAux n f₂ l := by
  intro f₁
  induction f₁ with
  | zero =>
    intro l f₂ h1 _
    have hl : l = [] := List.length_eq_zero.mp (Nat.le_zero.mp h1)
    subst hl
    rw [chunkListAux_nil, chunkListAux_nil]
  | succ g ih =>
    intro l f₂ h1 h2
    cases l with
    | nil => rw [chunkListAux_nil, chunkListAux_nil]
    | cons a as =>
      cases f₂ with
      | zero => simp at h2
      | succ h =>
        show ((a :: as).take n) :: chunkListAux n g ((a :: as).drop n) =
          ((a :: as).take n) :: chunkListAux n h ((a :: as).drop n)
        congr 1
        apply ih
        · simp only [List.length_drop, List.length_cons] at h1 ⊢
          omega
        · simp only [List.length_drop, List.length_cons] at h2 ⊢
          omega

theorem chunk_list_nil_eq (n : Nat) : chunk_list ([] : List α) n = [] := by
  by_cases h : n = 0 <;> simp [chunk_list, h, chunkListAux_nil]

theorem chunk_list_cons_eq {n : Nat} (hn : 0 < n) (a : α) (as : List α) :
    chunk_list (a :: as) n = (a :: as).take n :: chunk_list ((a :: as).drop n) n := by
  have hne : n ≠ 0 := hn.ne'
  unfold chunk_list
  rw [if_neg hne, if_neg hne]
  show (a :: as).take n :: chunkListAux n as.length ((a :: as).drop n) = _
  congr 1
  apply chunkListAux_fuel n hn
  · simp only [List.length_drop, List.length_cons]
    omega
  · exact le_rfl

theorem chunkListAux_join (n : Nat) (hn : 0 < n) :
    ∀ (f : Nat) (l : List α), l.length ≤ f → (chunkListAux n f l).flatten = l := by
  intro f
  induction f with
  | zero =>
    intro l h
    have hl : l = [] := List.length_eq_zero.mp (Nat.le_zero.mp h)
    subst hl
    rfl
  | succ g ih =>
    intro l h
    cases l with
    | nil => rfl
    | cons a as =>
      show ((a :: as).take n :: chunkListAux n g ((a :: as).drop n)).flatten = a :: as
      rw [List.flatten_cons, ih _ (by simp only [List.length_drop, List.length_cons] at h ⊢; omega)]
      exact List.take_append_drop n (a :: as)

theorem div_ceil_step (n k : Nat) (hn : 0 < n) (hk : 0 < k) :
    (k + n - 1) / n = 1 + (k - n + n - 1) / n := by
  rcases le_or_lt k n with h | h
  · have h1 : k - n = 0 := by omega
    rw [h1]
    have h2 : (k + n - 1) / n = 1 := Nat.div_eq_of_lt_le (by omega) (by omega)
    have h3 : (0 + n - 1) / n = 0 := Nat.div_eq_of_lt (by omega)
    rw [h2, h3]
  · have h1 : k - n + n - 1 = k - 1 := by omega
    have h2 : k + n - 1 = (k - 1) + n := by omega
    rw [h1, h2, Nat.add_div_right _ hn]
    omega

theorem chunkListAux_length (n : Nat) (hn : 0 < n) :
    ∀ (f : Nat) (l : List α), l.length ≤ f →
      (chunkListAux n f l).length = (l.length + n - 1) / n := by
  intro f
  induction f with
  | zero =>
    intro l h
    have hl : l = [] := List.length_eq_zero.mp (Nat.le_zero.mp h)
    subst hl
    rw [chunkListAux_nil]
    simp only [List.length_nil, Nat.zero_add]
    exact (Nat.div_eq_of_lt (by omega)).symm
  | succ g ih =>
    intro l h
    cases l with
    | nil =>
      rw [chunkListAux_nil]
      simp only [List.length_nil, Nat.zero_add]
      exact (Nat.div_eq_of_lt (by omega)).symm
    | cons a as =>
      show (((a :: as).take n) :: chunkListAux n g ((a :: as).drop n)).length = _
      rw [List.length_cons,
        ih _ (by simp only [List.length_drop, List.length_cons] at h ⊢; omega)]
      simp only [List.length_drop, List.length_cons]
      rw [div_ceil_step n (as.length + 1) hn (by omega)]
      omega

theorem chunkListAux_mem_length (n : Nat) :
    ∀ (f : Nat) (l : List α), ∀ c ∈ chunkListAux n f l, c.length ≤ n := by
  intro f
  induction f with
  | zero =>
    intro l c hc
    cases l with
    | nil => simp [chunkListAux_nil] at hc
    | cons a as => simp [chunkListAux] at hc
  | succ g ih =>
    intro l c hc
    cases l with
    | nil => simp [chunkListAux_nil] at hc
    | cons a as =>
      rcases List.mem_cons.mp hc with h | h
      · subst h
        rw [List.length_take]
        exact min_le_left _ _
      · exact ih _ c h

theorem chunkListAux_getD (n : Nat) (hn : 0 < n) :
    ∀ (f : Nat) (l : List α), l.length ≤ f →
      ∀ i, i + 1 < (chunkListAux n f l).length →
        ((chunkListAux n f l).getD i []).length = n := by
  intro f
  induction f with
  | zero =>
    intro l h i hi
    have hl : l = [] := List.length_eq_zero.mp (Nat.le_zero.mp h)
    subst hl
    simp [chunkListAux_nil] at hi
  | succ g ih =>
    intro l h i hi
    cases l with
    | nil => simp [chunkListAux_nil] at hi
    | cons a as =>
      have hstep : chunkListAux n (g + 1) (a :: as) =
          ((a :: as).take n) :: chunkListAux n g ((a :: as).drop n) := rfl
      rw [hstep] at hi ⊢
      cases i with
      | zero =>
        have hne : chunkListAux n g ((a :: as).drop n) ≠ [] := by
          intro hnil
          rw [List.length_cons, hnil] at hi
          simp at hi
        have hdrop : (a :: as).drop n ≠ [] := by
          intro hd
          rw [hd, chunkListAux_nil] at hne
          exact hne rfl
        have hlen : n < (a :: as).length := by
          by_contra hcon
          push_neg at hcon
          exact hdrop (List.drop_eq_nil_of_le hcon)
        simp only [List.getD_cons_zero, List.length_take]
        omega
      | succ j =>
        simp only [List.getD_cons_succ]
        apply ih _ (by simp only [List.length_drop, List.length_cons] at h ⊢; omega)
        rw [List.length_cons] at hi
        omega

theorem chunkListAux_take_join (n : Nat) (hn : 0 < n) :
    ∀ (f : Nat) (l : List α) (m : Nat), l.length ≤ f →
      ((chunkListAux n f l).take m).flatten = l.take (n * m) := by
  intro f
  induction f with
  | zero =>
    intro l m h
    have hl : l = [] := List.length_eq_zero.mp (Nat.le_zero.mp h)
    subst hl
    simp [chunkListAux_nil]
  | succ g ih =>
    intro l m h
    cases l with
    | nil => simp [chunkListAux_nil]
    | cons a as =>
      cases m with
      | zero => simp
      | succ m' =>
        have hstep : chunkListAux n (g + 1) (a :: as) =
            ((a :: as).take n) :: chunkListAux n g ((a :: as).drop n) := rfl
        rw [hstep, List.take_succ_cons, List.flatten_cons,
          ih _ m' (by simp only [List.length_drop, List.length_cons] at h ⊢; omega),
          show n * (m' + 1) = n + n * m' by ring, List.take_add]

theorem chunk_list_length (n : Nat) (hn : 0 < n) (l : List α) :
    (chunk_list l n).length = (l.length + n - 1) / n := by
  unfold chunk_list
  rw [if_neg hn.ne']
  exact chunkListAux_length n hn l.length l le_rfl

theorem chunk_list_mem_length (n : Nat) (l : List α) :
    ∀ c ∈ chunk_list l n, c.length ≤ n := by
  unfold chunk_list
  split
  · intro c hc
    simp at hc
  · exact chunkListAux_mem_length n l.length l

theorem chunk_list_getD (n : Nat) (hn : 0 < n) (l : List α) :
    ∀ i, i + 1 < (chunk_list l n).length → ((chunk_list l n).getD i []).length = n := by
  unfold chunk_list
  rw [if_neg hn.ne']
  exact chunkListAux_getD n hn l.length l le_rfl

theorem chunk_list_take_join (n : Nat) (hn : 0 < n) (l : List α) (m : Nat) :
    ((chunk_list l n).take m).flatten = l.take (n * m) := by
  unfold chunk_list
  rw [if_neg hn.ne']
  exact chunkListAux_take_join n hn l.length l m le_rfl

/-- **C4.** For every ingested buffer of `n` items and parameters
`chunk_size = s > 0` and `max_chunks = m`, the chunker pipeline stage
(`list(chunk_list(all_items, chunk_size))[:max_chunks]`, lines 370-377)
produces `min(ceil(n/s), m)` contiguous order-preserving batches, every
batch except possibly the last has exactly `s` items and none exceeds `s`,
concatenating the produced chunks in order reproduces the first
`min(n, s*m)` ingested items exactly, and identical input and parameters
yield identical chunk boundaries. -/
theorem c4_chunker_contract (s m : Nat) (hs : 0 < s) (l : List α) :
    ((chunk_list l s).take m).length = min ((l.length + s - 1) / s) m ∧
    (∀ i, i + 1 < ((chunk_list l s).take m).length →
      (((chunk_list l s).take m).getD i []).length = s) ∧
    (∀ c ∈ (chunk_list l s).take m, c.length ≤ s) ∧
    ((chunk_list l s).take m).flatten = l.take (min l.length (s * m)) ∧
    (∀ l' : List α, l' = l → (chunk_list l' s).take m = (chunk_list l s).take m) := by
  refine ⟨?_, ?_, ?_, ?_, ?_⟩
  · rw [List.length_take, chunk_list_length s hs l, Nat.min_comm]
  · intro i hi
    have hlt : i < m := by
      rw [List.length_take] at hi
      omega
    have hlen : i + 1 < (chunk_list l s).length := by
      rw [List.length_take] at hi
      omega
    rw [List.getD_eq_getD_get?, List.get?_take hlt, ← List.getD_eq_getD_get?]
    exact chunk_list_getD s hs l i hlen
  · intro c hc
    exact chunk_list_mem_length s l c (List.mem_of_mem_take hc)
  · rw [chunk_list_take_join s hs l m]
    rw [List.take_eq_take]
    omega
  · intro l' h
    rw [h]

/-- Witness for C4 at `l = [1,2,3,4,5]`, `s = 2`, `m = 2`: two full chunks
whose concatenation is the first four items. -/
theorem c4_chunker_contract_witness :
    ((chunk_list [1, 2, 3, 4, 5] 2).take 2).length = min ((5 + 2 - 1) / 2) 2 ∧
    ((chunk_list [1, 2, 3, 4, 5] 2).take 2).flatten = [1, 2, 3, 4, 5].take (min 5 (2 * 2)) := by
  have h := c4_chunker_contract 2 2 (by decide) [1, 2, 3, 4, 5]
  exact ⟨h.1, h.2.2.2.1⟩

/-! ### Lemmas about the metadata extractor -/

theorem metaStep_snd_fst (st : DateRange × List String × Int) (it : Item) :
    (metaStep st it).2.1 =
      (match it.author with
       | none => st.2.1
       | some a =>
           if a = "[deleted]" ∨ a = "AutoModerator" then st.2.1
           else if a ∈ st.2.1 then st.2.1 else st.2.1 ++ [a]) := rfl

theorem metaStep_authors_not_mem (st : DateRange × List String × Int) (it : Item)
    (a : String) (ha : a = "[deleted]" ∨ a = "AutoModerator") (h : a ∉ st.2.1) :
    a ∉ (metaStep st it).2.1 := by
  rw [metaStep_snd_fst]
  cases it.author with
  | none => exact h
  | some b =>
      show a ∉ (if b = "[deleted]" ∨ b = "AutoModerator" then st.2.1
        else if b ∈ st.2.1 then st.2.1 else st.2.1 ++ [b])
      by_cases hb : b = "[deleted]" ∨ b = "AutoModerator"
      · rw [if_pos hb]
        exact h
      · rw [if_neg hb]
        by_cases hmem : b ∈ st.2.1
        · rw [if_pos hmem]
          exact h
        · rw [if_neg hmem]
          intro hin
          rcases List.mem_append.mp hin with h1 | h1
          · exact h h1
          · rw [List.mem_singleton] at h1
            subst h1
            exact hb ha

theorem foldl_metaStep_authors (a : String) (ha : a = "[deleted]" ∨ a = "AutoModerator") :
    ∀ (l : List Item) (st : DateRange × List String × Int),
      a ∉ st.2.1 → a ∉ (l.foldl metaStep st).2.1 := by
  intro l
  induction l with
  | nil => intro st h; exact h
  | cons it tl ih =>
      intro st h
      exact ih (metaStep st it) (metaStep_authors_not_mem st it a ha h)

/-- **C9.** For every chunk, the metadata extractor's distinct-author set
never contains the exclusion sentinels `[deleted]` or `AutoModerator`, and
the reported `unique_authors` count always equals the length of the stored
author list. -/
theorem c9_author_sentinels (items : List Item) :
    "[deleted]" ∉ (extract_metadata items).authors ∧
    "AutoModerator" ∉ (extract_metadata items).authors ∧
    (extract_metadata items).unique_authors = (extract_metadata items).authors.length := by
  refine ⟨?_, ?_, rfl⟩
  · exact foldl_metaStep_authors _ (Or.inl rfl) items (⟨none, none⟩, [], 0) (by simp)
  · exact foldl_metaStep_authors _ (Or.inr rfl) items (⟨none, none⟩, [], 0) (by simp)

theorem metaStep_fst (st : DateRange × List String × Int) (it : Item) :
    (metaStep st it).1 = dateUpd st.1 it := rfl

theorem foldl_metaStep_fst :
    ∀ (l : List Item) (st : DateRange × List String × Int),
      (l.foldl metaStep st).1 = l.foldl dateUpd st.1 := by
  intro l
  induction l with
  | nil => intro st; rfl
  | cons it tl ih =>
      intro st
      rw [List.foldl_cons, List.foldl_cons, ih, metaStep_fst]

/-- **C5 (counterexample).** The claim says an item with a missing
`created_at` contributes to the count but not to the date range.  In the
code, a missing `created_utc` defaults to `0` and *does* enter the range:
adding such an item to a chunk whose only timestamp is 100 moves `earliest`
to epoch 0. -/
theorem c5_counterexample :
    (extract_metadata
      [⟨some (.num 100), none, none, none, none, none, none⟩,
       ⟨none, none, none, none, none, none, none⟩]).date_range = ⟨some 0, some 100⟩ ∧
    (extract_metadata
      [⟨some (.num 100), none, none, none, none, none, none⟩]).date_range =
        ⟨some 100, some 100⟩ ∧
    (⟨none, none, none, none, none, none, none⟩ : Item).created_utc = none := by
  refine ⟨?_, ?_, rfl⟩ <;> decide

/-- **C5 (amended).** An item whose `created_at` timestamp is present but
unparseable (`int(...)` raises) contributes to the chunk's item count but
not to the earliest/latest date range; an item with a *missing* `created_at`
is defaulted to timestamp 0 and does contribute to the range. -/
theorem c5_amended (l1 l2 : List Item) (it : Item)
    (h : parsedCreated it.created_utc = none) :
    (extract_metadata (l1 ++ it :: l2)).date_range =
      (extract_metadata (l1 ++ l2)).date_range ∧
    (extract_metadata (l1 ++ it :: l2)).post_count = (l1 ++ l2).length + 1 ∧
    (∀ it2 : Item, it2.created_utc = none → parsedCreated it2.created_utc = some 0) := by
  refine ⟨?_, ?_, ?_⟩
  · show (List.foldl metaStep (⟨none, none⟩, [], 0) (l1 ++ it :: l2)).1 =
      (List.foldl metaStep (⟨none, none⟩, [], 0) (l1 ++ l2)).1
    rw [foldl_metaStep_fst, foldl_metaStep_fst, List.foldl_append, List.foldl_append,
      List.foldl_cons]
    have hskip : dateUpd (List.foldl dateUpd ⟨none, none⟩ l1) it =
        List.foldl dateUpd ⟨none, none⟩ l1 := by
      unfold dateUpd
      rw [h]
    rw [hskip]
  · show (l1 ++ it :: l2).length = (l1 ++ l2).length + 1
    simp
    omega
  · intro it2 h2
    rw [h2]
    rfl

/-- Witness for C5 at a concrete chunk: the item with `created_utc = "zzz"`
(unparseable) is counted but leaves the range at 100. -/
theorem c5_witness :
    (extract_metadata
      [⟨some (.num 100), none, none, none, none, none, none⟩,
       ⟨some (.str "zzz"), none, none, none, none, none, none⟩]).date_range =
      (extract_metadata
        [⟨some (.num 100), none, none, none, none, none, none⟩]).date_range ∧
    (extract_metadata
      [⟨some (.num 100), none, none, none, none, none, none⟩,
       ⟨some (.str "zzz"), none, none, none, none, none, none⟩]).post_count = 2 := by
  have h := c5_amended [⟨some (.num 100), none, none, none, none, none, none⟩] []
    ⟨some (.str "zzz"), none, none, none, none, none, none⟩ (by decide)
  exact ⟨h.1, h.2.1⟩

/-! ### Coverage arithmetic (C6) -/

theorem round2_zero : round2 0 = 0 := by
  unfold round2
  norm_num

/-- **C6 (counterexample).** `coverage_percentage` does not literally equal
`100 * items_processed / total_items_estimate`: the stored value is rounded
to two decimal places, so at `items_processed = 1`,
`total_items_estimate = 3` the stored `33.33` differs from `100/3`. -/
theorem c6_counterexample :
    (file_coverage_of 1 3 42).coverage_percentage = 3333 / 100 ∧
    (file_coverage_of 1 3 42).coverage_percentage ≠ 100 * (1 : ℚ) / 3 := by
  have h : (file_coverage_of 1 3 42).coverage_percentage = 3333 / 100 := by
    unfold file_coverage_of coverage_pct round2
    norm_num
  refine ⟨h, ?_⟩
  rw [h]
  norm_num

/-- **C6 (amended).** For every archive, `coverage_percentage` equals
`100 * items_processed / total_items_estimate` *rounded to two decimals*,
and equals 0 whenever the estimate is 0 (no division by zero occurs: the
formula branch is guarded); the overall coverage across the submission and
comment archive-types sums `items_processed` and `total_items_estimate`
and recomputes the (rounded) percentage from the sums — which differs from
averaging the two percentages, as the concrete instance shows. -/
theorem c6_coverage_formulas :
    (∀ p fsz : Nat, (file_coverage_of p 0 fsz).coverage_percentage = 0) ∧
    (∀ p est fsz : Nat, (file_coverage_of p est fsz).coverage_percentage =
      if est = 0 then 0 else round2 (100 * (p : ℚ) / (est : ℚ))) ∧
    (∀ c1 c2 : FileCoverage, overall_coverage_of (some c1) (some c2) =
      ⟨c1.total_items_estimate + c2.total_items_estimate,
       c1.items_processed + c2.items_processed,
       (file_coverage_of (c1.items_processed + c2.items_processed)
         (c1.total_items_estimate + c2.total_items_estimate) 0).coverage_percentage⟩) ∧
    ((overall_coverage_of (some ⟨10, 10, 100, 0⟩) (some ⟨0, 90, 0, 0⟩)).coverage_percentage
        = 10 ∧
     ((100 : ℚ) + 0) / 2 = 50 ∧ (10 : ℚ) ≠ 50) := by
  refine ⟨?_, ?_, ?_, ?_, by norm_num, by norm_num⟩
  · intro p fsz
    show round2 (coverage_pct p 0) = 0
    unfold coverage_pct
    rw [if_neg (by omega)]
    exact round2_zero
  · intro p est fsz
    show round2 (coverage_pct p est) = _
    unfold coverage_pct
    by_cases h : est = 0
    · rw [if_pos h, if_neg (by omega)]
      exact round2_zero
    · rw [if_neg h, if_pos (by omega)]
      congr 1
      ring
  · intro c1 c2
    simp only [overall_coverage_of, file_coverage_of, coverage_pct]
    congr 1
    by_cases h : 0 < c1.total_items_estimate + c2.total_items_estimate
    · rw [if_pos h, if_pos h]
    · rw [if_neg h, if_neg h, round2_zero]
  · show (if (0:Nat) < 10 + 90 then
        round2 ((((10:Nat) + 0 : Nat) : ℚ) / (((10:Nat) + 90 : Nat) : ℚ) * 100) else 0) = 10
    rw [if_pos (by omega)]
    unfold round2
    norm_num

/-! ### The size estimator (C7, C8) -/

theorem sampleLoop_break :
    ∀ (l : List (Item × Nat)) (cnt sb : Nat), cnt < 1000 →
      ∀ rec : Item × Nat, l.get? (999 - cnt) = some rec →
        sampleLoop l cnt sb = (1000, rec.2) := by
  intro l
  induction l with
  | nil =>
    intro cnt sb h rec hr
    simp at hr
  | cons x rest ih =>
    intro cnt sb h rec hr
    cases x with
    | mk xi xb =>
      by_cases hc : 1000 ≤ cnt + 1
      · have h0 : 999 - cnt = 0 := by omega
        rw [h0, List.get?_cons_zero] at hr
        injection hr with hrec
        subst hrec
        show (if 1000 ≤ cnt + 1 then (cnt + 1, xb) else sampleLoop rest (cnt + 1) sb) =
          (1000, xb)
        rw [if_pos hc]
        have h1 : cnt + 1 = 1000 := by omega
        rw [h1]
      · rw [show 999 - cnt = (999 - (cnt + 1)) + 1 by omega, List.get?_cons_succ] at hr
        show (if 1000 ≤ cnt + 1 then (cnt + 1, xb) else sampleLoop rest (cnt + 1) sb) =
          (1000, rec.2)
        rw [if_neg hc]
        exact ih (cnt + 1) sb (by omega) rec hr

/-- **C7.** Below the 500 MiB threshold, a readable archive's estimate is
the exact record count of a full pass.  At or above the threshold (with at
least 1000 records, the 1000th carrying a positive cumulative byte count),
the estimate is the extrapolation `sample_items * file_size / sample_bytes`
from the first `N = 1000` records — the integer value of
`(N / bytes_for_N) * file_size_bytes`. -/
theorem c7_size_estimator :
    (∀ (src : SourceRun) (fs : Nat), fs < sizeThreshold → src.failed = false →
      estimate_total_items src fs = .ok src.yielded.length) ∧
    (∀ (src : SourceRun) (fs : Nat) (rec : Item × Nat), sizeThreshold ≤ fs →
      src.yielded.get? 999 = some rec → 0 < rec.2 →
      estimate_total_items src fs = .ok (1000 * fs / rec.2)) := by
  constructor
  · intro src fs hfs hfail
    unfold estimate_total_items
    rw [if_pos hfs, hfail]
    simp
  · intro src fs rec hfs hget hpos
    have hlen : 999 < src.yielded.length := by
      rcases List.get?_eq_some.mp hget with ⟨hl, _⟩
      exact hl
    have hsl : sampleLoop src.yielded 0 0 = (1000, rec.2) :=
      sampleLoop_break src.yielded 0 0 (by omega) rec (by simpa using hget)
    unfold estimate_total_items
    rw [if_neg (not_lt.mpr hfs),
      if_neg (show ¬(src.failed = true ∧ src.yielded.length < 1000) from
        fun hc => absurd hc.2 (by omega)),
      hsl, if_pos ⟨by omega, hpos⟩]

/-- Witness for C7: a 1-record small archive is counted exactly; a
threshold-sized archive with 1000 sampled records over 500 bytes is
extrapolated. -/
theorem c7_size_estimator_witness :
    estimate_total_items ⟨[((⟨none, none, none, none, none, none, none⟩ : Item), 7)], false⟩ 100 =
      .ok 1 ∧
    estimate_total_items srcW sizeThreshold = .ok (1000 * sizeThreshold / 500) := by
  constructor
  · exact c7_size_estimator.1 _ 100 (by decide) rfl
  · have hget : srcW.yielded.get? 999 =
        some ((⟨none, none, none, none, none, none, none⟩ : Item), 500) := by
      simp only [srcW]
      rw [List.get?_map, List.get?_range (by omega)]
      rfl
    exact c7_size_estimator.2 srcW sizeThreshold _ le_rfl hget (by decide)

/-- **C8 (counterexample).** "Estimation failure is never fatal" is false:
in the at-or-above-threshold branch the sampling loop is not inside a
`try`, so a source that fails before yielding 1000 records raises out of
the estimator instead of falling back. -/
theorem c8_counterexample :
    estimate_total_items ⟨[], true⟩ sizeThreshold = .error .readError := rfl

/-- **C8 (amended).** A read failure during the below-threshold exact-count
pass is caught and replaced by the `file_size / 500` heuristic (never
fatal there), and yields 0 when the heuristic cannot produce a value
(`file_size < 500`); an empty readable archive estimates 0 without raising;
a missing archive never reaches the estimator (`process_subreddit_file`
returns `None` first).  A read failure during the at-or-above-threshold
sampling pass, however, propagates (see the counterexample). -/
theorem c8_amended :
    (∀ (src : SourceRun) (fs : Nat), fs < sizeThreshold → src.failed = true →
      estimate_total_items src fs = .ok (fs / 500)) ∧
    (∀ (src : SourceRun) (fs : Nat), fs < sizeThreshold → fs < 500 → src.failed = true →
      estimate_total_items src fs = .ok 0) ∧
    (∀ fs : Nat, fs < sizeThreshold → estimate_total_items ⟨[], false⟩ fs = .ok 0) ∧
    (∀ (apiKey : Option String) (llm : String → Option String) (dateFmt : Int → String)
       (today path : String) (fs cs mc : Nat) (issub : Bool),
      process_subreddit_file apiKey llm dateFmt today none fs path cs mc issub =
        ([], [], .ok none)) := by
  refine ⟨?_, ?_, ?_, ?_⟩
  · intro src fs hfs hfail
    unfold estimate_total_items
    rw [if_pos hfs, hfail]
    simp
  · intro src fs hfs h500 hfail
    unfold estimate_total_items
    rw [if_pos hfs, hfail]
    simp [Nat.div_eq_of_lt h500]
  · intro fs hfs
    unfold estimate_total_items
    rw [if_pos hfs]
    simp
  · intro apiKey llm dateFmt today path fs cs mc issub
    rfl

/-- Witness for C8 at concrete inputs. -/
theorem c8_amended_witness :
    estimate_total_items ⟨[], true⟩ 400 = .ok 0 ∧
    estimate_total_items ⟨[], false⟩ 0 = .ok 0 ∧
    process_subreddit_file none (fun _ => none) (fun _ => "") "" none 0 "p" 1 1 true =
      ([], [], .ok none) := by
  refine ⟨?_, ?_, ?_⟩
  · exact c8_amended.2.1 ⟨[], true⟩ 400 (by decide) (by decide) rfl
  · exact c8_amended.2.2.1 0 (by decide)
  · exact c8_amended.2.2.2 none (fun _ => none) (fun _ => "") "" "p" 0 1 1 true

/-! ### The combined stage misses chunks (C3) -/

/-- **C3 (code divergence).** Claim: when summaries exist for both types,
the combined prompt contains every per-chunk analysis text from both types.
Divergence: the combined stage enumerates analysis files by
`range(len(results))`, not by the chunk ordinals that were written.  Disk
state after a run in which submission chunks 1 and 3 succeeded ("alpha",
"gamma"), chunk 2's LLM call failed, and the single comment chunk succeeded
("xray"): the list read for the combined prompt is `["alpha", "xray"]` —
chunk 3's analysis "gamma" is on disk but never read, because the loop
probes `chunk_1` and `chunk_2` only. -/
theorem c3_combined_misses_chunk :
    combined_all_analyses "test"
      [⟨"test_chunk_1_analysis.md", .text "alpha"⟩,
       ⟨"test_chunk_3_analysis.md", .text "gamma"⟩] 2
      [⟨"test_chunk_1_analysis.md", .text "xray"⟩] 1 = ["alpha", "xray"] ∧
    "gamma" ∉ combined_all_analyses "test"
      [⟨"test_chunk_1_analysis.md", .text "alpha"⟩,
       ⟨"test_chunk_3_analysis.md", .text "gamma"⟩] 2
      [⟨"test_chunk_1_analysis.md", .text "xray"⟩] 1 := by
  constructor <;> decide

/-! ### The subreddit identifier (C10) -/

theorem splitOnCharAux_head (c : Char) (l : List Char) :
    (splitOnCharAux c l).headI = l.takeWhile (fun x => x ≠ c) := by
  induction l with
  | nil => rfl
  | cons x xs ih =>
    by_cases h : x = c
    · simp [splitOnCharAux, h]
    · simp [splitOnCharAux, h, ih]

/-! ### Running the pipeline without a credential (C1) -/

theorem format_item_ok (issub : Bool) (dateFmt : Int → String) (it : Item)
    (h : parsedCreated it.created_utc ≠ none) :
    ∃ o, format_item issub dateFmt it = .ok o := by
  cases hp : parsedCreated it.created_utc with
  | none => exact absurd hp h
  | some t =>
    unfold format_item
    simp only [hp]
    by_cases hb : issub = true
    · rw [if_pos hb]
      exact ⟨_, rfl⟩
    · rw [if_neg hb]
      split
      · exact ⟨_, rfl⟩
      · exact ⟨_, rfl⟩

theorem formatItemsAux_ok (issub : Bool) (dateFmt : Int → String) :
    ∀ items : List Item, (∀ it ∈ items, parsedCreated it.created_utc ≠ none) →
      ∃ parts, formatItemsAux issub dateFmt items = .ok parts := by
  intro items
  induction items with
  | nil => intro _; exact ⟨[], rfl⟩
  | cons it tl ih =>
    intro h
    obtain ⟨o, ho⟩ := format_item_ok issub dateFmt it (h it (List.mem_cons_self it tl))
    obtain ⟨rest, hrest⟩ := ih (fun x hx => h x (List.mem_cons_of_mem it hx))
    refine ⟨o :: rest, ?_⟩
    unfold formatItemsAux
    rw [ho, hrest]

theorem format_content_ok (items : List Item) (issub : Bool) (dateFmt : Int → String)
    (h : ∀ it ∈ items, parsedCreated it.created_utc ≠ none) :
    ∃ s, format_content_for_ai items issub dateFmt = .ok s := by
  obtain ⟨parts, hp⟩ := formatItemsAux_ok issub dateFmt items h
  refine ⟨String.intercalate "\n\n" (parts.filterMap id), ?_⟩
  unfold format_content_for_ai
  rw [hp]

theorem estimate_total_items_eq_ok (src : SourceRun) (fs : Nat)
    (hfail : src.failed = false) :
    estimate_total_items src fs = .ok (estValNoFail src fs) := by
  unfold estimate_total_items estValNoFail
  by_cases h : fs < sizeThreshold
  · rw [if_pos h, if_pos h, hfail]
    simp
  · rw [if_neg h, if_neg h, if_neg (by simp [hfail])]

/-- `process_subreddit_file` on a present source whose estimation succeeds
and whose ingestion does not raise. -/
theorem process_ok_eq (apiKey : Option String) (llm : String → Option String)
    (dateFmt : Int → String) (today : String) (src : SourceRun) (fs : Nat)
    (path : String) (cs mc : Nat) (issub : Bool) (est : Nat)
    (hest : estimate_total_items src fs = .ok est)
    (hg : ¬(src.failed = true ∧ src.yielded.length < max (cs * mc) 1)) :
    process_subreddit_file apiKey llm dateFmt today (some src) fs path cs mc issub =
      processTail
        (chunkLoop apiKey llm dateFmt (subredditOf path) issub
          ((chunk_list ((src.yielded.map Prod.fst).take (max (cs * mc) 1)) cs).take mc) 0)
        (aggregate apiKey llm today (subredditOf path)
          (coverage_pct ((src.yielded.map Prod.fst).take (max (cs * mc) 1)).length est)
          (file_coverage_of ((src.yielded.map Prod.fst).take (max (cs * mc) 1)).length est fs))
        (file_coverage_of ((src.yielded.map Prod.fst).take (max (cs * mc) 1)).length est fs) := by
  simp only [process_subreddit_file, hest, if_neg hg]
  rfl

/-- `process_subreddit_file` on a present, non-failing source. -/
theorem process_some_eq (apiKey : Option String) (llm : String → Option String)
    (dateFmt : Int → String) (today : String) (src : SourceRun) (fs : Nat)
    (path : String) (cs mc : Nat) (issub : Bool) (hfail : src.failed = false) :
    process_subreddit_file apiKey llm dateFmt today (some src) fs path cs mc issub =
      processTail
        (chunkLoop apiKey llm dateFmt (subredditOf path) issub
          ((chunk_list ((src.yielded.map Prod.fst).take (max (cs * mc) 1)) cs).take mc) 0)
        (aggregate apiKey llm today (subredditOf path)
          (coverage_pct ((src.yielded.map Prod.fst).take (max (cs * mc) 1)).length
            (estValNoFail src fs))
          (file_coverage_of ((src.yielded.map Prod.fst).take (max (cs * mc) 1)).length
            (estValNoFail src fs) fs))
        (file_coverage_of ((src.yielded.map Prod.fst).take (max (cs * mc) 1)).length
          (estValNoFail src fs) fs) :=
  process_ok_eq apiKey llm dateFmt today src fs path cs mc issub _
    (estimate_total_items_eq_ok src fs hfail) (by simp [hfail])

/-- The chunk loop at a chunk whose content formats fine, when no API key
is configured: the prompt file is written, then `analyze_with_openai`
raises `ValueError`. -/
theorem chunkLoop_nokey (llm : String → Option String) (dateFmt : Int → String)
    (sub : String) (issub : Bool) (chunk : List Item) (rest : List (List Item))
    (i : Nat) (content : String)
    (hfmt : format_content_for_ai chunk issub dateFmt = .ok content) :
    chunkLoop none llm dateFmt sub issub (chunk :: rest) i =
      ([⟨sub ++ "_chunk_" ++ toString (i + 1) ++ "_prompt.txt",
         .text (prepare_ai_prompt sub content (extract_metadata chunk) dateFmt)⟩],
       [], .error .valueError) := by
  simp only [chunkLoop]
  rw [hfmt]
  rfl

/-- **C1 (counterexample).** With the credential absent but a nonempty
archive, the run does *not* abort before any chunk is read or written: the
archive is read, the first chunk's prompt file is written into the output
directory, and only then does the first LLM call raise. -/
theorem c1_counterexample :
    ((process_subreddit_file none (fun _ => some "ignored") (fun _ => "1970-01-01")
      "2025-01-01"
      (some ⟨[((⟨some (.num 0), none, none, none, none, some "hello", none⟩ : Item), 10)],
             false⟩)
      100 "data/test_comments.zst" 1 1 false).1.map (fun w => w.name) =
        ["test_chunk_1_prompt.txt"]) ∧
    (process_subreddit_file none (fun _ => some "ignored") (fun _ => "1970-01-01")
      "2025-01-01"
      (some ⟨[((⟨some (.num 0), none, none, none, none, some "hello", none⟩ : Item), 10)],
             false⟩)
      100 "data/test_comments.zst" 1 1 false).2.2 = .error .valueError := by
  constructor
  · decide
  · rfl

/-- **C1 (amended).** If the credential is absent and the archive is
present, readable, and nonempty (with parseable timestamps, positive chunk
size and chunk budget), the run aborts with `ValueError` at the first LLM
call of the first chunk — after the archive has been read and after exactly
one output-directory entry, the first chunk's prompt file, has been
written; no analysis or summary file is ever written without a
credential. -/
theorem c1_amended (llm : String → Option String) (dateFmt : Int → String)
    (today : String) (src : SourceRun) (fs : Nat) (path : String) (cs mc : Nat)
    (issub : Bool) (hfail : src.failed = false) (hne : src.yielded ≠ [])
    (hcs : 0 < cs) (hmc : 0 < mc)
    (hparse : ∀ p ∈ src.yielded, parsedCreated p.1.created_utc ≠ none) :
    ∃ promptText,
      process_subreddit_file none llm dateFmt today (some src) fs path cs mc issub =
        ([⟨subredditOf path ++ "_chunk_" ++ toString 1 ++ "_prompt.txt",
           .text promptText⟩], [], .error .valueError) := by
  have hall : (src.yielded.map Prod.fst).take (max (cs * mc) 1) ≠ [] := by
    intro hnil
    rcases List.take_eq_nil_iff.mp hnil with h | h
    · omega
    · exact hne (List.map_eq_nil.mp h)
  obtain ⟨a, as, hcons⟩ := List.exists_cons_of_ne_nil hall
  obtain ⟨m', rfl⟩ : ∃ m', mc = m' + 1 := ⟨mc - 1, by omega⟩
  have hsub : ∀ it ∈ (a :: as).take cs, parsedCreated it.created_utc ≠ none := by
    intro it hit
    have hmem : it ∈ src.yielded.map Prod.fst := by
      rw [← hcons] at hit
      exact List.mem_of_mem_take (List.mem_of_mem_take hit)
    obtain ⟨p, hp, hpe⟩ := List.mem_map.mp hmem
    rw [← hpe]
    exact hparse p hp
  obtain ⟨content, hfmt⟩ := format_content_ok ((a :: as).take cs) issub dateFmt hsub
  refine ⟨prepare_ai_prompt (subredditOf path) content (extract_metadata ((a :: as).take cs))
    dateFmt, ?_⟩
  rw [process_some_eq none llm dateFmt today src fs path cs (m' + 1) issub hfail, hcons,
    chunk_list_cons_eq hcs a as, List.take_succ_cons,
    chunkLoop_nokey llm dateFmt (subredditOf path) issub _ _ 0 content hfmt]
  rfl

/-- Witness for C1: the concrete one-record comment archive, credential
absent. -/
theorem c1_amended_witness :
    ∃ promptText,
      process_subreddit_file none (fun _ => none) (fun _ => "1970-01-01") "2025-01-01"
        (some ⟨[((⟨some (.num 5), none, none, none, none, some "body text", none⟩ : Item),
                 20)], false⟩)
        3000 "data/unit_comments.zst" 2 3 false =
        ([⟨subredditOf "data/unit_comments.zst" ++ "_chunk_" ++ toString 1 ++ "_prompt.txt",
           .text promptText⟩], [], .error .valueError) :=
  c1_amended (fun _ => none) (fun _ => "1970-01-01") "2025-01-01"
    ⟨[((⟨some (.num 5), none, none, none, none, some "body text", none⟩ : Item), 20)], false⟩
    3000 "data/unit_comments.zst" 2 3 false rfl (by decide) (by decide) (by decide)
    (by decide)

/-! ### Aggregator transitions (C2) -/

theorem chunkLoop_ok_ids (apiKey : Option String) (llm : String → Option String)
    (dateFmt : Int → String) (sub : String) (issub : Bool) :
    ∀ (chunks : List (List Item)) (i : Nat) (rs : List ChunkResult),
      (chunkLoop apiKey llm dateFmt sub issub chunks i).2.2 = .ok rs →
      (∀ r ∈ rs, i + 1 ≤ r.chunk_id) ∧
      List.Chain' (· < ·) (rs.map (fun r => r.chunk_id)) := by
  intro chunks
  induction chunks with
  | nil =>
    intro i rs h
    have h' : Except.ok ([] : List ChunkResult) = .ok rs := h
    injection h' with h''
    subst h''
    simp
  | cons chunk rest ih =>
    intro i rs h
    simp only [chunkLoop] at h
    cases hfmt : format_content_for_ai chunk issub dateFmt with
    | error e =>
      rw [hfmt] at h
      simp at h
    | ok content =>
      rw [hfmt] at h
      cases apiKey with
      | none => simp [analyze_with_openai] at h
      | some k =>
        simp only [analyze_with_openai] at h
        cases hl : llm (prepare_ai_prompt sub content (extract_metadata chunk) dateFmt) with
        | none =>
          rw [hl] at h
          have h' : (chunkLoop (some k) llm dateFmt sub issub rest (i + 1)).2.2 = .ok rs := h
          obtain ⟨h1, h2⟩ := ih (i + 1) rs h'
          exact ⟨fun r hr => Nat.le_of_succ_le (h1 r hr), h2⟩
        | some a =>
          rw [hl] at h
          have h' : ((chunkLoop (some k) llm dateFmt sub issub rest (i + 1)).2.2).map
              (fun rs => (⟨i + 1, extract_metadata chunk, a⟩ : ChunkResult) :: rs) =
                .ok rs := h
          cases hrec : (chunkLoop (some k) llm dateFmt sub issub rest (i + 1)).2.2 with
          | error e =>
            rw [hrec] at h'
            simp [Except.map] at h'
          | ok rs' =>
            rw [hrec] at h'
            simp only [Except.map] at h'
            injection h' with h''
            obtain ⟨h1, h2⟩ := ih (i + 1) rs' hrec
            subst h''
            constructor
            · intro r hr
              rcases List.mem_cons.mp hr with rfl | hr'
              · simp
              · exact Nat.le_of_succ_le (h1 r hr')
            · rw [List.map_cons]
              cases rs' with
              | nil => simp
              | cons r0 rt =>
                rw [List.map_cons]
                refine List.chain'_cons.mpr ⟨?_, ?_⟩
                · have := h1 r0 (List.mem_cons_self r0 rt)
                  show i + 1 < r0.chunk_id
                  omega
                · simpa only [List.map_cons] using h2

/-- **C2.** Aggregator state transitions on the number of successful chunk
analyses: with 0 successes nothing is written and no call is made; with
exactly 1 the summary's analysis text is that chunk's analysis verbatim and
no meta-analysis call is made; with 2 or more, exactly one meta-analysis
call is made, its prompt embedding every chunk analysis labeled by its
1-based ordinal (in ordinal order: the chunk loop produces results with
strictly increasing chunk ids), and the summary's text is the meta-call's
result, never a raw concatenation.  The summary artifact is only written
when the meta call succeeds. -/
theorem c2_aggregator_transitions :
    (∀ (apiKey : Option String) (llm : String → Option String) (today sub : String)
       (covPct : ℚ) (fileCov : FileCoverage),
      aggregate apiKey llm today sub covPct fileCov [] = ([], [], .ok ())) ∧
    (∀ (apiKey : Option String) (llm : String → Option String) (today sub : String)
       (covPct : ℚ) (fileCov : FileCoverage) (r : ChunkResult),
      aggregate apiKey llm today sub covPct fileCov [r] =
        ([⟨sub ++ "_all_analyses.json", .resultsJson [r]⟩,
          ⟨sub ++ "_analysis_summary.json",
           .summaryJson ⟨sub, 1, r.metadata.post_count, fileCov, today, "analysis",
                         r.analysis⟩⟩], [], .ok ())) ∧
    (∀ (k : String) (llm : String → Option String) (today sub : String) (covPct : ℚ)
       (fileCov : FileCoverage) (results : List ChunkResult),
      2 ≤ results.length →
      (llm (meta_prompt sub covPct results) = none →
        aggregate (some k) llm today sub covPct fileCov results =
          ([⟨sub ++ "_all_analyses.json", .resultsJson results⟩,
            ⟨sub ++ "_meta_prompt.txt", .text (meta_prompt sub covPct results)⟩],
           [meta_prompt sub covPct results], .ok ())) ∧
      (∀ t, llm (meta_prompt sub covPct results) = some t →
        aggregate (some k) llm today sub covPct fileCov results =
          ([⟨sub ++ "_all_analyses.json", .resultsJson results⟩,
            ⟨sub ++ "_meta_prompt.txt", .text (meta_prompt sub covPct results)⟩,
            ⟨sub ++ "_meta_analysis.md", .text t⟩,
            ⟨sub ++ "_analysis_summary.json",
             .summaryJson ⟨sub, results.length, totalPosts results, fileCov, today,
                           "meta_analysis", t⟩⟩],
           [meta_prompt sub covPct results], .ok ()))) ∧
    (∀ (sub : String) (covPct : ℚ) (results : List ChunkResult), ∃ pre,
      meta_prompt sub covPct results = pre ++ chunkAnalysesJoined results ++ "\n") ∧
    (∀ (apiKey : Option String) (llm : String → Option String) (dateFmt : Int → String)
       (sub : String) (issub : Bool) (chunks : List (List Item)) (rs : List ChunkResult),
      (chunkLoop apiKey llm dateFmt sub issub chunks 0).2.2 = .ok rs →
      List.Chain' (· < ·) (rs.map (fun r => r.chunk_id))) := by
  refine ⟨?_, ?_, ?_, ?_, ?_⟩
  · intro apiKey llm today sub covPct fileCov
    rfl
  · intro apiKey llm today sub covPct fileCov r
    rfl
  · intro k llm today sub covPct fileCov results h2
    obtain ⟨r0, rtl, rfl⟩ : ∃ r0 rtl, results = r0 :: rtl := by
      cases results with
      | nil => simp at h2
      | cons a b => exact ⟨a, b, rfl⟩
    have hlen : 1 ≤ rtl.length := by
      simp only [List.length_cons] at h2
      omega
    constructor
    · intro hl
      simp only [aggregate, if_pos hlen, analyze_with_openai]
      rw [hl]
    · intro t hl
      simp only [aggregate, if_pos hlen, analyze_with_openai]
      rw [hl]
  · intro sub covPct results
    exact ⟨_, rfl⟩
  · intro apiKey llm dateFmt sub issub chunks rs h
    exact (chunkLoop_ok_ids apiKey llm dateFmt sub issub chunks 0 rs h).2

/-- Witness for C2: the single-result shortcut, a two-result meta run with a
succeeding LLM, and ordinal order of a concrete one-chunk loop. -/
theorem c2_aggregator_witness :
    aggregate (some "key") (fun _ => some "META") "d" "s" 0 ⟨1, 1, 100, 9⟩
      [⟨1, extract_metadata [], "A1"⟩, ⟨2, extract_metadata [], "A2"⟩] =
      ([⟨"s" ++ "_all_analyses.json",
         .resultsJson [⟨1, extract_metadata [], "A1"⟩, ⟨2, extract_metadata [], "A2"⟩]⟩,
        ⟨"s" ++ "_meta_prompt.txt",
         .text (meta_prompt "s" 0
           [⟨1, extract_metadata [], "A1"⟩, ⟨2, extract_metadata [], "A2"⟩])⟩,
        ⟨"s" ++ "_meta_analysis.md", .text "META"⟩,
        ⟨"s" ++ "_analysis_summary.json",
         .summaryJson ⟨"s",
           ([⟨1, extract_metadata [], "A1"⟩, ⟨2, extract_metadata [], "A2"⟩] :
             List ChunkResult).length,
           totalPosts [⟨1, extract_metadata [], "A1"⟩, ⟨2, extract_metadata [], "A2"⟩],
           ⟨1, 1, 100, 9⟩, "d", "meta_analysis", "META"⟩⟩],
       [meta_prompt "s" 0 [⟨1, extract_metadata [], "A1"⟩, ⟨2, extract_metadata [], "A2"⟩]],
       .ok ()) ∧
    aggregate none (fun _ => some "META") "d" "s" 0 ⟨1, 1, 100, 9⟩
      [⟨7, extract_metadata [], "ONLY"⟩] =
      ([⟨"s" ++ "_all_analyses.json", .resultsJson [⟨7, extract_metadata [], "ONLY"⟩]⟩,
        ⟨"s" ++ "_analysis_summary.json",
         .summaryJson ⟨"s", 1, (extract_metadata []).post_count, ⟨1, 1, 100, 9⟩, "d",
                       "analysis", "ONLY"⟩⟩], [], .ok ()) ∧
    List.Chain' (· < ·)
      (([⟨1, extract_metadata [((⟨some (.num 0), none, none, none, none, some "b", none⟩ :
          Item))], "META"⟩] : List ChunkResult).map (fun r => r.chunk_id)) := by
  refine ⟨?_, ?_, ?_⟩
  · exact (c2_aggregator_transitions.2.2.1 "key" (fun _ => some "META") "d" "s" 0 ⟨1, 1, 100, 9⟩
      [⟨1, extract_metadata [], "A1"⟩, ⟨2, extract_metadata [], "A2"⟩] (by decide)).2 "META" rfl
  · exact c2_aggregator_transitions.2.1 none (fun _ => some "META") "d" "s" 0 ⟨1, 1, 100, 9⟩
      ⟨7, extract_metadata [], "ONLY"⟩
  · exact c2_aggregator_transitions.2.2.2.2 (some "key") (fun _ => some "META")
      (fun _ => "D") "s" false
      [[⟨some (.num 0), none, none, none, none, some "b", none⟩]]
      [⟨1, extract_metadata [((⟨some (.num 0), none, none, none, none, some "b", none⟩ :
          Item))], "META"⟩] rfl

theorem chunkLoop_writes (apiKey : Option String) (llm : String → Option String)
    (dateFmt : Int → String) (sub : String) (issub : Bool) :
    ∀ (chunks : List (List Item)) (i : Nat) (w : FW),
      w ∈ (chunkLoop apiKey llm dateFmt sub issub chunks i).1 →
      (∃ suf, w.name = sub ++ suf) ∧
      (match w.content with
       | .summaryJson s => s.subreddit = sub
       | .finalJson f => f.subreddit = sub
       | _ => True) := by
  intro chunks
  induction chunks with
  | nil =>
    intro i w hw
    simp [chunkLoop] at hw
  | cons chunk rest ih =>
    intro i w hw
    simp only [chunkLoop] at hw
    cases hfmt : format_content_for_ai chunk issub dateFmt with
    | error e =>
      rw [hfmt] at hw
      simp at hw
    | ok content =>
      rw [hfmt] at hw
      cases apiKey with
      | none =>
        have hw' : w ∈ [(⟨sub ++ "_chunk_" ++ toString (i + 1) ++ "_prompt.txt",
            .text (prepare_ai_prompt sub content (extract_metadata chunk) dateFmt)⟩ : FW)] := hw
        rw [List.mem_singleton] at hw'
        subst hw'
        exact ⟨⟨"_chunk_" ++ toString (i + 1) ++ "_prompt.txt",
          by simp [String.append_assoc]⟩, trivial⟩
      | some k =>
        cases hl : llm (prepare_ai_prompt sub content (extract_metadata chunk) dateFmt) with
        | none =>
          simp only [analyze_with_openai] at hw
          rw [hl] at hw
          have hw' : w ∈ (⟨sub ++ "_chunk_" ++ toString (i + 1) ++ "_prompt.txt",
              .text (prepare_ai_prompt sub content (extract_metadata chunk) dateFmt)⟩ : FW) ::
              (chunkLoop (some k) llm dateFmt sub issub rest (i + 1)).1 := hw
          rcases List.mem_cons.mp hw' with rfl | hmem
          · exact ⟨⟨"_chunk_" ++ toString (i + 1) ++ "_prompt.txt",
              by simp [String.append_assoc]⟩, trivial⟩
          · exact ih (i + 1) w hmem
        | some a =>
          simp only [analyze_with_openai] at hw
          rw [hl] at hw
          have hw' : w ∈ (⟨sub ++ "_chunk_" ++ toString (i + 1) ++ "_prompt.txt",
              .text (prepare_ai_prompt sub content (extract_metadata chunk) dateFmt)⟩ : FW) ::
              (⟨sub ++ "_chunk_" ++ toString (i + 1) ++ "_analysis.md", .text a⟩ : FW) ::
              (chunkLoop (some k) llm dateFmt sub issub rest (i + 1)).1 := hw
          rcases List.mem_cons.mp hw' with rfl | hmem
          · exact ⟨⟨"_chunk_" ++ toString (i + 1) ++ "_prompt.txt",
              by simp [String.append_assoc]⟩, trivial⟩
          rcases List.mem_cons.mp hmem with rfl | hmem2
          · exact ⟨⟨"_chunk_" ++ toString (i + 1) ++ "_analysis.md",
              by simp [String.append_assoc]⟩, trivial⟩
          · exact ih (i + 1) w hmem2

theorem aggregate_writes (apiKey : Option String) (llm : String → Option String)
    (today sub : String) (covPct : ℚ) (fileCov : FileCoverage)
    (results : List ChunkResult) :
    ∀ w ∈ (aggregate apiKey llm today sub covPct fileCov results).1,
      (∃ suf, w.name = sub ++ suf) ∧
      (match w.content with
       | .summaryJson s => s.subreddit = sub
       | .finalJson f => f.subreddit = sub
       | _ => True) := by
  intro w hw
  cases results with
  | nil => simp [aggregate] at hw
  | cons r0 rtl =>
    by_cases hlen : 1 ≤ rtl.length
    · simp only [aggregate, if_pos hlen] at hw
      cases apiKey with
      | none =>
        have hw' : w ∈ [(⟨sub ++ "_all_analyses.json", .resultsJson (r0 :: rtl)⟩ : FW),
            ⟨sub ++ "_meta_prompt.txt", .text (meta_prompt sub covPct (r0 :: rtl))⟩] := hw
        rcases List.mem_cons.mp hw' with rfl | hmem
        · exact ⟨⟨"_all_analyses.json", rfl⟩, trivial⟩
        rw [List.mem_singleton] at hmem
        subst hmem
        exact ⟨⟨"_meta_prompt.txt", rfl⟩, trivial⟩
      | some k =>
        simp only [analyze_with_openai] at hw
        cases hl : llm (meta_prompt sub covPct (r0 :: rtl)) with
        | none =>
          rw [hl] at hw
          have hw' : w ∈ [(⟨sub ++ "_all_analyses.json", .resultsJson (r0 :: rtl)⟩ : FW),
              ⟨sub ++ "_meta_prompt.txt", .text (meta_prompt sub covPct (r0 :: rtl))⟩] := hw
          rcases List.mem_cons.mp hw' with rfl | hmem
          · exact ⟨⟨"_all_analyses.json", rfl⟩, trivial⟩
          rw [List.mem_singleton] at hmem
          subst hmem
          exact ⟨⟨"_meta_prompt.txt", rfl⟩, trivial⟩
        | some m =>
          rw [hl] at hw
          have hw' : w ∈ [(⟨sub ++ "_all_analyses.json", .resultsJson (r0 :: rtl)⟩ : FW),
              ⟨sub ++ "_meta_prompt.txt", .text (meta_prompt sub covPct (r0 :: rtl))⟩,
              ⟨sub ++ "_meta_analysis.md", .text m⟩,
              ⟨sub ++ "_analysis_summary.json",
               .summaryJson ⟨sub, (r0 :: rtl).length, totalPosts (r0 :: rtl), fileCov, today,
                             "meta_analysis", m⟩⟩] := hw
          rcases List.mem_cons.mp hw' with rfl | hmem
          · exact ⟨⟨"_all_analyses.json", rfl⟩, trivial⟩
          rcases List.mem_cons.mp hmem with rfl | hmem
          · exact ⟨⟨"_meta_prompt.txt", rfl⟩, trivial⟩
          rcases List.mem_cons.mp hmem with rfl | hmem
          · exact ⟨⟨"_meta_analysis.md", rfl⟩, trivial⟩
          rw [List.mem_singleton] at hmem
          subst hmem
          exact ⟨⟨"_analysis_summary.json", rfl⟩, rfl⟩
    · simp only [aggregate, if_neg hlen] at hw
      have hw' : w ∈ [(⟨sub ++ "_all_analyses.json", .resultsJson (r0 :: rtl)⟩ : FW),
          ⟨sub ++ "_analysis_summary.json",
           .summaryJson ⟨sub, 1, r0.metadata.post_count, fileCov, today, "analysis",
                         r0.analysis⟩⟩] := hw
      rcases List.mem_cons.mp hw' with rfl | hmem
      · exact ⟨⟨"_all_analyses.json", rfl⟩, trivial⟩
      rw [List.mem_singleton] at hmem
      subst hmem
      exact ⟨⟨"_analysis_summary.json", rfl⟩, rfl⟩

theorem processTail_writes (r : List FW × List String × Except PyErr (List ChunkResult))
    (ag : List ChunkResult → List FW × List String × Except PyErr Unit)
    (fileCov : FileCoverage) (w : FW) (hw : w ∈ (processTail r ag fileCov).1) :
    w ∈ r.1 ∨ ∃ results, r.2.2 = .ok results ∧ w ∈ (ag results).1 := by
  unfold processTail at hw
  split at hw
  next e heq => exact Or.inl hw
  next results heq =>
    split at hw
    next e2 heq2 =>
      rcases List.mem_append.mp hw with h | h
      · exact Or.inl h
      · exact Or.inr ⟨results, heq, h⟩
    next u heq2 =>
      rcases List.mem_append.mp hw with h | h
      · exact Or.inl h
      · exact Or.inr ⟨results, heq, h⟩

/-- **C10.** The subreddit identifier used for output file names, persisted
summaries, and the prompt header is the portion of the archive file's
basename before the first underscore (the whole basename when it has none):
`subredditOf` computes exactly that prefix, two paths whose basenames share
the prefix get the same identifier, every file the pipeline writes is named
`<identifier> ++ suffix` and every persisted summary object carries the
identifier, and each per-chunk prompt opens with `r/<identifier>`. -/
theorem c10_subreddit_identifier :
    (∀ path : String, subredditOf path =
      String.mk ((basenameChars path.data).takeWhile (fun x => x ≠ '_'))) ∧
    (∀ p q : String,
      (basenameChars p.data).takeWhile (fun x => x ≠ '_') =
        (basenameChars q.data).takeWhile (fun x => x ≠ '_') →
      subredditOf p = subredditOf q) ∧
    (∀ (apiKey : Option String) (llm : String → Option String) (dateFmt : Int → String)
       (today : String) (file : Option SourceRun) (fs : Nat) (path : String)
       (cs mc : Nat) (issub : Bool),
      ∀ w ∈ (process_subreddit_file apiKey llm dateFmt today file fs path cs mc issub).1,
        (∃ suf, w.name = subredditOf path ++ suf) ∧
        (match w.content with
         | .summaryJson s => s.subreddit = subredditOf path
         | .finalJson f => f.subreddit = subredditOf path
         | _ => True)) ∧
    (∀ (sub content : String) (md : SubMetadata) (dateFmt : Int → String), ∃ rest,
      prepare_ai_prompt sub content md dateFmt =
        "\n# Subreddit Community Analysis: r/" ++ (sub ++ rest)) := by
  refine ⟨?_, ?_, ?_, ?_⟩
  · intro path
    unfold subredditOf
    rw [splitOnCharAux_head]
  · intro p q h
    unfold subredditOf
    rw [splitOnCharAux_head, splitOnCharAux_head, h]
  · intro apiKey llm dateFmt today file fs path cs mc issub w hw
    cases file with
    | none => simp [process_subreddit_file] at hw
    | some src =>
      cases hest : estimate_total_items src fs with
      | error e =>
        simp only [process_subreddit_file, hest] at hw
        simp at hw
      | ok est =>
        by_cases hg : src.failed = true ∧ src.yielded.length < max (cs * mc) 1
        · simp only [process_subreddit_file, hest, if_pos hg] at hw
          simp at hw
        · rw [process_ok_eq apiKey llm dateFmt today src fs path cs mc issub est hest hg] at hw
          rcases processTail_writes _ _ _ w hw with h | ⟨results, _, h⟩
          · exact chunkLoop_writes apiKey llm dateFmt (subredditOf path) issub _ 0 w h
          · exact aggregate_writes apiKey llm today (subredditOf path) _ _ results w h
  · intro sub content md dateFmt
    refine ⟨?_, ?_⟩
    · exact "\n\n## Context\n- Subreddit: r/" ++ (sub ++
        ("\n- Time period: " ++ dateOrNone md.date_range.earliest dateFmt ++ " to " ++
        dateOrNone md.date_range.latest dateFmt ++ "\n- Sample size: " ++
        toString md.post_count ++ " posts/comments\n- Unique authors: " ++
        toString md.unique_authors ++
        "\n\n## Your Task\nYou are a cultural anthropologist and user researcher analyzing this community to identify pain points, challenges, and recurring themes. Based on the content provided, conduct a thorough analysis of the community conversations.\n\n## Analysis Framework\nPlease analyze the following content from r/" ++
        (sub ++
        (" and provide insights in these categories:\n\n0. **General Information**\n   - What is the community about?\n   - What are the main topics discussed?\n   - What is popular to chat about, what isn't?\n\n1. **Primary Pain Points and Problems**\n   - Identify the most significant challenges, frustrations, or problems faced by community members\n   - Rank these issues by apparent frequency and emotional intensity\n   - Include specific examples or quotes that illustrate each pain point\n\n2. **Recurring Questions and Information Gaps**\n   - Note patterns of questions that appear repeatedly\n   - Identify topics where users seem to lack information or clarity\n   - Highlight areas where the community struggles to find consensus or clear answers\n\n3. **Most Popular Solutions, Products, or Services**\n   - Identify the most frequently discussed solutions, products, or services\n   - Analyze the frequency and intensity of discussion around these topics\n   - Consider the emotional tone and sentiment associated with each topic\n\n4. **Least Popular Solutions, Products, or Services**\n   - Identify the least frequently discussed solutions, products, or services\n   - Analyze the frequency and intensity of discussion around these topics\n   - Consider the emotional tone and sentiment associated with each topic\n\n## Content For Analysis:\n\n" ++
        (content ++ "\n")))))
    · unfold prepare_ai_prompt
      simp only [String.append_assoc]

/-- Witness for C10: shared basename prefixes across directories and
archive-types yield the same identifier, and a concrete prompt opens with
`r/` followed by the identifier. -/
theorem c10_subreddit_identifier_witness :
    subredditOf "data/abc_submissions.zst" = subredditOf "other/abc_comments.zst" ∧
    (∃ rest, prepare_ai_prompt "abc" "CONTENT" (extract_metadata []) (fun _ => "D") =
      "\n# Subreddit Community Analysis: r/" ++ ("abc" ++ rest)) := by
  constructor
  · exact c10_subreddit_identifier.2.1 "data/abc_submissions.zst" "other/abc_comments.zst"
      (by decide)
  · exact c10_subreddit_identifier.2.2.2 "abc" "CONTENT" (extract_metadata [])
      (fun _ => "D")

end SubAnalyze
